import Mathlib

/-!
# Formal model of the swift-auth session library

Shallow embedding of the TypeScript sources:

* `src/internal/utils.ts` — `stringifyBigInt`, `generateSessionId`
* `src/internal/session.ts` — `getUserFromSession`, `createUserSession`,
  `updateUserSession`, `removeUserFromSession`
* `src/internal/cookie.ts` — `getSessionId`, `deleteSessionCookie`
* `src/internal/redis-client.ts` — `createRedisClient`
* `src/index.ts` — `createAuth`, `hashPassword`, `comparePassword`

JavaScript objects are modelled as association lists of string keys and
scalar values; the Redis store as a key/value map with set-overwrites-key
semantics; the cookie context as a name/value jar.  Each lifecycle
operation returns its result together with the successor world state and a
trace of the external calls it performed, so that "zero store calls" and
"the cookie is untouched" are directly statable.  Store transport failures
(a rejected promise from the Redis client) are modelled by an error oracle
`RedisErrors`; an operation that hits a configured error returns
`Except.error` with the world reflecting only the effects that happened
before the failing call, exactly as an exception thrown at an `await`
would leave the JS world.
-/

/-- Scalar values a user record may hold.  `vBigInt` models a JavaScript
`bigint`, `vNum` an ordinary integral `number`; the other constructors
model the remaining JSON scalars.  (Floating point and nested objects are
outside the claims.) -/
inductive Value : Type where
  | vStr : String → Value
  | vNum : Int → Value
  | vBigInt : Int → Value
  | vBool : Bool → Value
  | vNull : Value
deriving DecidableEq, Repr

/-- A JavaScript object: key/value entries in insertion order.  Objects
built by the library always have distinct keys (JS object keys are
unique). -/
abbrev Obj := List (String × Value)

/-- Property read `o[k]`: value of the first entry with key `k`. -/
def Obj.get : Obj → String → Option Value
  | [], _ => none
  | (k', v) :: rest, k => if k' == k then some v else Obj.get rest k

/-- The JS `k in o` test. -/
def Obj.hasKey (o : Obj) (k : String) : Bool :=
  (Obj.get o k).isSome

/-- Replace the value of the first entry with key `k`. -/
def Obj.setExisting : Obj → String → Value → Obj
  | [], _, _ => []
  | (k', v') :: rest, k, v =>
    if k' == k then (k', v) :: rest else (k', v') :: Obj.setExisting rest k v

/-- JS property assignment `o[k] = v`: overwrite in place when the key
exists, otherwise append a new entry. -/
def Obj.set (o : Obj) (k : String) (v : Value) : Obj :=
  if Obj.hasKey o k then Obj.setExisting o k v else o ++ [(k, v)]

theorem Obj.get_setExisting (o : Obj) (k : String) (v : Value) (k' : String) :
    Obj.hasKey o k →
    Obj.get (Obj.setExisting o k v) k' =
      if k == k' then some v else Obj.get o k' := by
  induction o with
  | nil => intro h; simp [Obj.hasKey, Obj.get] at h
  | cons hd tl ih =>
    intro h
    obtain ⟨k₀, v₀⟩ := hd
    by_cases hk : k₀ = k
    · subst hk
      simp only [Obj.setExisting, beq_self_eq_true, if_pos]
      by_cases hk' : k₀ = k'
      · subst hk'; simp [Obj.get]
      · simp [Obj.get, hk', beq_iff_eq]
    · have hb : (k₀ == k) = false := by simp [beq_iff_eq, hk]
      simp only [Obj.setExisting, hb, Bool.false_eq_true, if_neg, not_false_iff]
      have htl : Obj.hasKey tl k := by
        simpa [Obj.hasKey, Obj.get, hb] using h
      by_cases hk' : k₀ = k'
      · subst hk'
        have hbk : (k == k₀) = false := by
          simp [beq_iff_eq]; exact fun hh => hk hh.symm
        simp [Obj.get, hbk]
      · have hb' : (k₀ == k') = false := by simp [beq_iff_eq, hk']
        simp [Obj.get, hb', ih htl]

theorem Obj.get_append_right (o : Obj) (k : String) (v : Value) (k' : String) :
    Obj.get o k' = none →
    Obj.get (o ++ [(k, v)]) k' = if k == k' then some v else none := by
  induction o with
  | nil => intro _; simp [Obj.get]
  | cons hd tl ih =>
    intro h
    obtain ⟨k₀, v₀⟩ := hd
    by_cases hk : k₀ = k'
    · subst hk; simp [Obj.get] at h
    · have hb : (k₀ == k') = false := by simp [beq_iff_eq, hk]
      simp only [Obj.get, hb] at h
      simpa [Obj.get, hb] using ih h

/-- Characterisation of `Obj.set`: reading any key after an assignment. -/
theorem Obj.get_set (o : Obj) (k : String) (v : Value) (k' : String) :
    Obj.get (Obj.set o k v) k' =
      if k == k' then some v else Obj.get o k' := by
  unfold Obj.set
  by_cases h : Obj.hasKey o k
  · simp [h, Obj.get_setExisting o k v k' h]
  · simp only [h, Bool.false_eq_true, if_neg, not_false_iff]
    by_cases hk : k = k'
    · subst hk
      have hn : Obj.get o k = none := by
        cases hg : Obj.get o k with
        | none => rfl
        | some _ => exact absurd (by simp [Obj.hasKey, hg]) h
      rw [Obj.get_append_right o k v k hn]
      simp [hn]
    · have hb : (k == k') = false := by simp [beq_iff_eq, hk]
      induction o with
      | nil => simp [Obj.get, hb]
      | cons hd tl ih =>
        obtain ⟨k₀, v₀⟩ := hd
        by_cases hk0 : k₀ = k'
        · subst hk0; simp [Obj.get, hb]
        · have hb0 : (k₀ == k') = false := by simp [beq_iff_eq, hk0]
          have htl : ¬ Obj.hasKey tl k := by
            intro htl'
            apply h
            simp only [Obj.hasKey, Obj.get] at htl' ⊢
            by_cases hkk : k₀ = k
            · simp [hkk]
            · simpa [beq_iff_eq, hkk] using htl'
          simp only [List.cons_append, Obj.get, hb0]
          exact ih htl

/-! ## The Redis store and the cookie jar -/

/-- The external key/value store, as observed by one caller: keys map to
the structured (parsed) form of the stored value.  TTLs are recorded in
the call trace but not aged here (no simulated clock is needed by the
claims). -/
abbrev Store := List (String × Obj)

/-- `redis.get(key)` on a live (unexpired) store. -/
def Store.get : Store → String → Option Obj
  | [], _ => none
  | (k', v) :: rest, k => if k' == k then some v else Store.get rest k

/-- `redis.set(key, value, { ex })`: overwrite the key. -/
def Store.set (st : Store) (k : String) (v : Obj) : Store :=
  (k, v) :: st.filter (fun p => p.1 != k)

/-- `redis.del(key)`: the key becomes immediately unreadable. -/
def Store.del (st : Store) (k : String) : Store :=
  st.filter (fun p => p.1 != k)

theorem Store.get_filter_ne (st : Store) (k : String) :
    Store.get (st.filter (fun p => p.1 != k)) k = none := by
  induction st with
  | nil => rfl
  | cons hd tl ih =>
    obtain ⟨k₀, v₀⟩ := hd
    rw [List.filter_cons]
    by_cases h : k₀ = k
    · simp only [h, bne_self_eq_false, Bool.false_eq_true, if_neg, not_false_iff]
      exact ih
    · have hb : (k₀ != k) = true := by simp [bne_iff_ne, h]
      have hb' : (k₀ == k) = false := by simp [beq_iff_eq, h]
      simp only [hb, if_pos, Store.get, hb', Bool.false_eq_true, if_neg,
        not_false_iff]
      exact ih

theorem Store.get_after_set (st : Store) (k : String) (v : Obj) :
    Store.get (Store.set st k v) k = some v := by
  simp [Store.set, Store.get]

theorem Store.get_del_same (st : Store) (k : String) :
    Store.get (Store.del st k) k = none := by
  simpa [Store.del] using Store.get_filter_ne st k

/-- The caller-scoped cookie context: cookie names mapped to values. -/
abbrev CookieJar := List (String × String)

/-- `cookies.get(name)?.value`. -/
def CookieJar.get : CookieJar → String → Option String
  | [], _ => none
  | (k', v) :: rest, k => if k' == k then some v else CookieJar.get rest k

/-- `cookies.set(name, value, options)` (the fixed attribute set of §3 is
recorded in the call trace, not in the jar). -/
def CookieJar.set (jar : CookieJar) (k v : String) : CookieJar :=
  (k, v) :: jar.filter (fun p => p.1 != k)

/-- `cookies.delete(name)`. -/
def CookieJar.delete (jar : CookieJar) (k : String) : CookieJar :=
  jar.filter (fun p => p.1 != k)

theorem CookieJar.get_delete_same (jar : CookieJar) (k : String) :
    CookieJar.get (CookieJar.delete jar k) k = none := by
  induction jar with
  | nil => rfl
  | cons hd tl ih =>
    obtain ⟨k₀, v₀⟩ := hd
    rw [CookieJar.delete, List.filter_cons]
    by_cases h : k₀ = k
    · simp only [h, bne_self_eq_false, Bool.false_eq_true, if_neg, not_false_iff]
      exact ih
    · have hb : (k₀ != k) = true := by simp [bne_iff_ne, h]
      have hb' : (k₀ == k) = false := by simp [beq_iff_eq, h]
      simp only [hb, if_pos, CookieJar.get, hb', Bool.false_eq_true, if_neg,
        not_false_iff]
      exact ih

theorem CookieJar.get_after_cookie_set (jar : CookieJar) (k v : String) :
    CookieJar.get (CookieJar.set jar k v) k = some v := by
  simp [CookieJar.set, CookieJar.get]

/-- The fixed session-cookie name from `src/internal/keys.ts`.
Modelled from the spec: `keys.ts` is not among the sources; the spec
describes it as "a single fixed cookie name (a module-wide constant)",
whose literal value no claim depends on. -/
def COOKIE_SESSION_KEY : String := "session-id"

/-- One external call performed by a lifecycle operation. -/
inductive Event : Type where
  | storeGet : String → Event
  | storeSet : String → Obj → Int → Event
  | storeDel : String → Event
  | cookieSet : String → String → Int → Event
  | cookieDelete : String → Event
  | genSessionId : Event
deriving DecidableEq, Repr

/-- The world a request handler sees: the store and its cookie context. -/
structure World : Type where
  store : Store
  jar : CookieJar
deriving DecidableEq, Repr

/-- Transport-failure oracle for the Redis client: for each operation and
key, `some e` means the underlying promise rejects with error `e`. -/
structure RedisErrors : Type where
  getErr : String → Option String
  setErr : String → Option String
  delErr : String → Option String

/-- A store whose calls all succeed. -/
def noErrors : RedisErrors :=
  ⟨fun _ => none, fun _ => none, fun _ => none⟩

/-! ## `src/internal/utils.ts` -/

/-- One lowercase hexadecimal digit, as produced by JavaScript
`Number.prototype.toString(16)`. -/
def hexDigit (n : Nat) : Char :=
  if n < 10 then Char.ofNat (48 + n) else Char.ofNat (87 + n)

/-- The two characters of `b.toString(16).padStart(2, "0")` for a byte
`b < 256`. -/
def byteToHexChars (b : Nat) : List Char :=
  [hexDigit (b / 16 % 16), hexDigit (b % 16)]

/-- `b.toString(16).padStart(2, "0")` for a byte `b < 256`. -/
def byteToHex (b : Nat) : String :=
  String.mk (byteToHexChars b)

/-- `generateSessionId` from `utils.ts`: hex-encode the 512 random bytes
drawn from `crypto.getRandomValues`.  The random source is made explicit:
`randomBytes` is the content of the `Uint8Array` after the call. -/
def generateSessionId (randomBytes : List Nat) : String :=
  String.join (randomBytes.map byteToHex)

/-- The replacer function of `stringifyBigInt` in `utils.ts`:
`typeof value === "bigint" ? value.toString() : value`.  A `bigint` is
replaced by its decimal string; every other scalar is passed through. -/
def bigintReplace : Value → Value
  | Value.vBigInt n => Value.vStr (toString n)
  | v => v

/-- Net effect on a flat scalar record of `stringifyBigInt` from
`utils.ts` composed with the JSON parse performed when the record is read
back (`JSON.parse` in `getUserFromSession`, or the store client's own
deserialisation).  On the scalar subset the JSON text round-trip is the
identity, so the composite maps each field value through the bigint
replacer; in particular a `bigint` field comes back as a decimal string,
because JSON carries no bigint type. -/
def stringifyBigInt (o : Obj) : Obj :=
  o.map (fun kv => (kv.1, bigintReplace kv.2))

theorem Obj.get_map_snd (f : Value → Value) (o : Obj) (k : String) :
    Obj.get (o.map (fun kv => (kv.1, f kv.2))) k = (Obj.get o k).map f := by
  induction o with
  | nil => rfl
  | cons hd tl ih =>
    obtain ⟨k₀, v₀⟩ := hd
    by_cases h : k₀ = k
    · simp [Obj.get, h]
    · have hb : (k₀ == k) = false := by simp [beq_iff_eq, h]
      simp [Obj.get, hb, ih]

theorem stringifyBigInt_get (o : Obj) (k : String) :
    Obj.get (stringifyBigInt o) k = (Obj.get o k).map bigintReplace :=
  Obj.get_map_snd bigintReplace o k

/-! ## Hex decoding and the password helpers (`src/index.ts`) -/

/-- Value of one hexadecimal character, `none` for a non-hex character. -/
def hexCharVal (c : Char) : Option Nat :=
  if 48 ≤ c.toNat ∧ c.toNat ≤ 57 then some (c.toNat - 48)
  else if 97 ≤ c.toNat ∧ c.toNat ≤ 102 then some (c.toNat - 87)
  else if 65 ≤ c.toNat ∧ c.toNat ≤ 70 then some (c.toNat - 55)
  else none

/-- Node's `Buffer.from(s, "hex")`: decode two characters per byte,
truncating at the first invalid character or dangling half pair. -/
def bufferFromHexAux : List Char → List Nat
  | c₁ :: c₂ :: rest =>
    match hexCharVal c₁, hexCharVal c₂ with
    | some h, some l => (16 * h + l) :: bufferFromHexAux rest
    | _, _ => []
  | _ => []

/-- `Buffer.from(s, "hex")` as a byte list. -/
def bufferFromHex (s : String) : List Nat :=
  bufferFromHexAux s.data

/-- `Buffer.prototype.toString("hex")`: lowercase hex encoding. -/
def hexEncode (bytes : List Nat) : String :=
  String.join (bytes.map byteToHex)

/-- `crypto.timingSafeEqual(a, b)`: throws
`ERR_CRYPTO_TIMING_SAFE_EQUAL_LENGTH` when the buffers differ in length,
otherwise compares the full buffers in constant time. -/
def timingSafeEqual (a b : List Nat) : Except String Bool :=
  if a.length = b.length then Except.ok (a == b)
  else Except.error "ERR_CRYPTO_TIMING_SAFE_EQUAL_LENGTH"

/-- `hashPassword` from `src/index.ts`: scrypt-derive 64 bytes of key
material from the normalised password and the salt, then hex-encode.
The key-derivation primitive (`crypto.scrypt`, including the password
normalisation it receives) is the opaque host function `deriveKey`;
`.normalize()` on the hex output is the identity, hex being ASCII. -/
def hashPassword (deriveKey : String → String → List Nat)
    (password salt : String) : String :=
  hexEncode (deriveKey password salt)

/-- `comparePassword` from `src/index.ts`: recompute the hash for the
submitted credentials and compare the hex-decoded buffers with
`crypto.timingSafeEqual`. -/
def comparePassword (deriveKey : String → String → List Nat)
    (password salt hashedPassword : String) : Except String Bool :=
  timingSafeEqual
    (bufferFromHex (hashPassword deriveKey password salt))
    (bufferFromHex hashedPassword)

/-! ## `src/internal/session.ts` and `src/internal/cookie.ts` -/

/-- The internal collaborators held by an auth instance: the configured
payload field list (`_payload`) and the TTL in seconds (`_ttl`).  The
Redis client itself lives in the `World`/`RedisErrors` parameters. -/
structure Auth : Type where
  payload : List String
  ttl : Int
deriving DecidableEq, Repr

/-- `getSessionId` from `cookie.ts`:
`cookies.get(COOKIE_SESSION_KEY)?.value ?? null`. -/
def getSessionId (jar : CookieJar) : Option String :=
  CookieJar.get jar COOKIE_SESSION_KEY

/-- JavaScript falsiness of the session-identifier lookup: the source
guards every operation with `if (!sessionId)`, which treats both a
missing cookie and an empty-string cookie value as "no session". -/
def isFalsy : Option String → Bool
  | none => true
  | some s => s == ""

/-- One iteration of the projection loop shared by all four lifecycle
operations: `if (key in src) dst[key] = src[key]` (reading the property
when, and only when, the `in` test succeeds). -/
def projectStep (src : Obj) (acc : Obj) (key : String) : Obj :=
  match Obj.get src key with
  | some v => Obj.set acc key v
  | none => acc

/-- The projection loop shared by all four lifecycle operations:
`for (const key of payload) if (key in src) dst[key] = src[key]`,
starting from the empty object. -/
def projectPayload (payload : List String) (src : Obj) : Obj :=
  payload.foldl (projectStep src) []

/-- `getUserFromSession` (read).  Returns the result, the unchanged
world, and the store calls made.  The stored value arrives structured
(the `typeof data === "string"` branch of the source re-parses JSON
text; both branches end at the same parsed object, which is what
`Store` holds). -/
def getUserFromSession (auth : Auth) (errs : RedisErrors) (w : World) :
    Except String (Option Obj) × World × List Event :=
  match CookieJar.get w.jar COOKIE_SESSION_KEY with
  | none => (Except.ok none, w, [])
  | some sid =>
    if sid == "" then (Except.ok none, w, [])
    else
      let key := "session:" ++ sid
      match errs.getErr key with
      | some e => (Except.error e, w, [Event.storeGet key])
      | none =>
        match Store.get w.store key with
        | none => (Except.ok none, w, [Event.storeGet key])
        | some sessionData =>
          (Except.ok (some (projectPayload auth.payload sessionData)), w,
            [Event.storeGet key])

/-- `createUserSession` (create): generate a fresh identifier from the
random source, project the user onto the payload fields, store the
serialised record under `session:<id>` with the TTL as expiry, then set
the session cookie to the identifier with `maxAge` equal to the TTL. -/
def createUserSession (auth : Auth) (errs : RedisErrors)
    (randomBytes : List Nat) (user : Obj) (w : World) :
    Except String Unit × World × List Event :=
  let sessionId := generateSessionId randomBytes
  let sessionData := projectPayload auth.payload user
  let key := "session:" ++ sessionId
  let stored := stringifyBigInt sessionData
  match errs.setErr key with
  | some e => (Except.error e, w, [Event.genSessionId, Event.storeSet key stored auth.ttl])
  | none =>
    (Except.ok (),
      ⟨Store.set w.store key stored, CookieJar.set w.jar COOKIE_SESSION_KEY sessionId⟩,
      [Event.genSessionId, Event.storeSet key stored auth.ttl,
        Event.cookieSet COOKIE_SESSION_KEY sessionId auth.ttl])

/-- `updateUserSession` (update): silent no-op when the cookie carries no
identifier; otherwise overwrite `session:<id>` with the projected record
and the TTL as expiry, leaving the cookie untouched. -/
def updateUserSession (auth : Auth) (errs : RedisErrors) (user : Obj)
    (w : World) : Except String Unit × World × List Event :=
  match getSessionId w.jar with
  | none => (Except.ok (), w, [])
  | some sid =>
    if sid == "" then (Except.ok (), w, [])
    else
      let sessionData := projectPayload auth.payload user
      let key := "session:" ++ sid
      let stored := stringifyBigInt sessionData
      match errs.setErr key with
      | some e => (Except.error e, w, [Event.storeSet key stored auth.ttl])
      | none =>
        (Except.ok (), ⟨Store.set w.store key stored, w.jar⟩,
          [Event.storeSet key stored auth.ttl])

/-- `removeUserFromSession` (remove): no-op signal `null` when the cookie
carries no identifier; otherwise delete `session:<id>` from the store
and then delete the session cookie.  The two deletes run sequentially
and the second is not guarded against the first's failure: a rejected
`redis.del` propagates before `deleteSessionCookie` is reached. -/
def removeUserFromSession (_auth : Auth) (errs : RedisErrors) (w : World) :
    Except String (Option Unit) × World × List Event :=
  match getSessionId w.jar with
  | none => (Except.ok none, w, [])
  | some sid =>
    if sid == "" then (Except.ok none, w, [])
    else
      let key := "session:" ++ sid
      match errs.delErr key with
      | some e => (Except.error e, w, [Event.storeDel key])
      | none =>
        (Except.ok (some ()),
          ⟨Store.del w.store key, CookieJar.delete w.jar COOKIE_SESSION_KEY⟩,
          [Event.storeDel key, Event.cookieDelete COOKIE_SESSION_KEY])

/-! ## Construction (`src/internal/redis-client.ts`, `src/index.ts`) -/

/-- Connection options for the store client. -/
structure RedisConfig : Type where
  url : String
  token : String
deriving DecidableEq, Repr

/-- `createRedisClient`: both URL and token are mandatory; either one
empty (falsy) makes construction throw.  Constructing the client
performs no store access. -/
def createRedisClient (cfg : RedisConfig) : Except String Unit :=
  if cfg.url = "" ∨ cfg.token = "" then
    Except.error "Both REDIS URL and TOKEN are required to create Redis client"
  else Except.ok ()

/-- The configuration object accepted by `createAuth` in `src/index.ts`. -/
structure CreateAuthOptions : Type where
  redis : RedisConfig
  ttl : Int
  payload : List String
deriving DecidableEq, Repr

/-- `createAuth`: reject a payload field list without `id`, then build
the Redis client (which validates URL and token), then assemble the
instance.  Construction touches neither the store nor any cookie, as the
result type shows: no `World` is consumed or produced. -/
def createAuth (options : CreateAuthOptions) : Except String Auth :=
  if ¬ options.payload.contains "id" then
    Except.error "payload must include `id`"
  else
    match createRedisClient options.redis with
    | Except.error e => Except.error e
    | Except.ok () => Except.ok ⟨options.payload, options.ttl⟩

/-! ## Helper lemmas -/

theorem projectStep_of_get_none (src acc : Obj) (key : String)
    (h : Obj.get src key = none) : projectStep src acc key = acc := by
  unfold projectStep
  rw [h]

theorem projectStep_of_get_some (src acc : Obj) (key : String) (v : Value)
    (h : Obj.get src key = some v) :
    projectStep src acc key = Obj.set acc key v := by
  unfold projectStep
  rw [h]

theorem projectPayload_get_aux (src : Obj) (payload : List String) :
    ∀ (acc : Obj) (k : String),
      Obj.get (payload.foldl (projectStep src) acc) k =
      if k ∈ payload ∧ (Obj.get src k).isSome then Obj.get src k
      else Obj.get acc k := by
  induction payload with
  | nil => intro acc k; simp
  | cons key rest ih =>
    intro acc k
    rw [List.foldl_cons, ih]
    by_cases hk : key = k
    · subst hk
      cases hg : Obj.get src key with
      | none =>
        rw [projectStep_of_get_none src acc key hg]
        simp
      | some v =>
        rw [projectStep_of_get_some src acc key v hg]
        by_cases hr : key ∈ rest
        · simp [hr]
        · simp [hr, Obj.get_set]
    · have hmem : (k ∈ key :: rest) ↔ (k ∈ rest) := by
        constructor
        · intro h
          rcases List.mem_cons.mp h with h1 | h1
          · exact absurd h1.symm hk
          · exact h1
        · exact List.mem_cons_of_mem key
      have hiff : ∀ c : Prop, (k ∈ rest ∧ c) ↔ (k ∈ key :: rest ∧ c) := by
        intro c
        constructor
        · rintro ⟨h1, h2⟩; exact ⟨hmem.mpr h1, h2⟩
        · rintro ⟨h1, h2⟩; exact ⟨hmem.mp h1, h2⟩
      cases hg : Obj.get src key with
      | none =>
        rw [projectStep_of_get_none src acc key hg]
        by_cases hc : k ∈ rest ∧ (Obj.get src k).isSome = true
        · rw [if_pos hc, if_pos ((hiff _).mp hc)]
        · rw [if_neg hc, if_neg (fun h => hc ((hiff _).mpr h))]
      | some v =>
        rw [projectStep_of_get_some src acc key v hg]
        by_cases hc : k ∈ rest ∧ (Obj.get src k).isSome = true
        · rw [if_pos hc, if_pos ((hiff _).mp hc)]
        · rw [if_neg hc, if_neg (fun h => hc ((hiff _).mpr h))]
          rw [Obj.get_set]
          have hb : (key == k) = false := by simp [beq_iff_eq, hk]
          simp [hb]

/-- Reading a key out of the projection: present with the source value
exactly when the key is configured and present in the source. -/
theorem projectPayload_get (payload : List String) (src : Obj) (k : String) :
    Obj.get (projectPayload payload src) k =
      if k ∈ payload ∧ (Obj.get src k).isSome then Obj.get src k else none := by
  rw [projectPayload, projectPayload_get_aux src payload [] k]
  rfl

theorem String.join_data_aux (l : List String) :
    ∀ s : String, (l.foldl (fun r t => r ++ t) s).data
      = s.data ++ (l.map String.data).flatten := by
  induction l with
  | nil => intro s; simp
  | cons hd tl ih =>
    intro s
    rw [List.foldl_cons, ih]
    simp

theorem String.join_data (l : List String) :
    (String.join l).data = (l.map String.data).flatten := by
  rw [String.join, String.join_data_aux]
  rfl

theorem hexEncode_data (bytes : List Nat) :
    (hexEncode bytes).data = (bytes.map byteToHexChars).flatten := by
  rw [hexEncode, String.join_data]
  congr 1
  induction bytes with
  | nil => rfl
  | cons b tl ih => simp [byteToHex, ih]

theorem hexCharVal_hexDigit (n : Nat) (h : n < 16) :
    hexCharVal (hexDigit n) = some n := by
  interval_cases n <;> rfl

theorem hexDigit_mem_alphabet (n : Nat) (h : n < 16) :
    hexDigit n ∈ ("0123456789abcdef").data := by
  interval_cases n <;> decide

theorem bufferFromHexAux_cons (c₁ c₂ : Char) (rest : List Char)
    (h₁ h₂ : Nat) (hv₁ : hexCharVal c₁ = some h₁) (hv₂ : hexCharVal c₂ = some h₂) :
    bufferFromHexAux (c₁ :: c₂ :: rest) = (16 * h₁ + h₂) :: bufferFromHexAux rest := by
  conv_lhs => rw [bufferFromHexAux]
  rw [hv₁, hv₂]

theorem bufferFromHexAux_encode (bytes : List Nat) (h : ∀ b ∈ bytes, b < 256) :
    bufferFromHexAux ((bytes.map byteToHexChars).flatten) = bytes := by
  induction bytes with
  | nil => rfl
  | cons b tl ih =>
    have hb : b < 256 := h b (List.mem_cons_self b tl)
    have htl : ∀ x ∈ tl, x < 256 := fun x hx => h x (List.mem_cons_of_mem b hx)
    have hflat : (((b :: tl).map byteToHexChars).flatten)
        = hexDigit (b / 16 % 16) :: hexDigit (b % 16)
          :: ((tl.map byteToHexChars).flatten) := by
      simp [byteToHexChars]
    rw [hflat,
      bufferFromHexAux_cons _ _ _ _ _
        (hexCharVal_hexDigit _ (Nat.mod_lt _ (by omega)))
        (hexCharVal_hexDigit _ (Nat.mod_lt _ (by omega))),
      ih htl]
    have hhi : b / 16 % 16 = b / 16 :=
      Nat.mod_eq_of_lt (Nat.div_lt_of_lt_mul (by omega))
    rw [hhi, Nat.div_add_mod b 16]

/-- Hex-decoding inverts hex-encoding on byte lists. -/
theorem bufferFromHex_hexEncode (bytes : List Nat) (h : ∀ b ∈ bytes, b < 256) :
    bufferFromHex (hexEncode bytes) = bytes := by
  rw [bufferFromHex, hexEncode_data]
  exact bufferFromHexAux_encode bytes h

/-! ## Claim theorems -/

/-- Claim C4: in a cookie context with no session cookie, `read` returns
the absent result with zero store calls, `update` returns successfully as
a silent no-op with zero store writes and zero session-identifier
generations, and `remove` performs no store delete and no cookie delete;
the world is unchanged by all three, whatever the store's error
behaviour, since the store is never reached. -/
theorem absent_cookie_noop (auth : Auth) (errs : RedisErrors) (user : Obj)
    (w : World) (h : CookieJar.get w.jar COOKIE_SESSION_KEY = none) :
    getUserFromSession auth errs w = (Except.ok none, w, [])
    ∧ updateUserSession auth errs user w = (Except.ok (), w, [])
    ∧ removeUserFromSession auth errs w = (Except.ok none, w, []) := by
  refine ⟨?_, ?_, ?_⟩ <;>
    simp [getUserFromSession, updateUserSession, removeUserFromSession,
      getSessionId, h]

theorem absent_cookie_noop_witness :
    CookieJar.get ([] : CookieJar) COOKIE_SESSION_KEY = none
    ∧ (getUserFromSession ⟨["id"], 60⟩ noErrors ⟨[], []⟩
        = (Except.ok none, ⟨[], []⟩, [])
      ∧ updateUserSession ⟨["id"], 60⟩ noErrors [("id", Value.vNum 1)] ⟨[], []⟩
        = (Except.ok (), ⟨[], []⟩, [])
      ∧ removeUserFromSession ⟨["id"], 60⟩ noErrors ⟨[], []⟩
        = (Except.ok none, ⟨[], []⟩, [])) :=
  ⟨rfl, absent_cookie_noop ⟨["id"], 60⟩ noErrors [("id", Value.vNum 1)] ⟨[], []⟩ rfl⟩

/-- Claim C5: construction fails synchronously (with `Except.error`, so no
instance is produced) whenever the configured payload list lacks `"id"`,
or the store URL or token is empty; and the missing-`"id"` failure is the
payload check itself, decided before the Redis client is even built —
construction touches no store and no cookie (no `World` is involved). -/
theorem createAuth_config_error (opts : CreateAuthOptions)
    (h : ¬ "id" ∈ opts.payload ∨ opts.redis.url = "" ∨ opts.redis.token = "") :
    (∃ e, createAuth opts = Except.error e)
    ∧ (¬ "id" ∈ opts.payload →
        createAuth opts = Except.error "payload must include `id`") := by
  constructor
  · by_cases hid : "id" ∈ opts.payload
    · refine ⟨"Both REDIS URL and TOKEN are required to create Redis client", ?_⟩
      have hrc : opts.redis.url = "" ∨ opts.redis.token = "" := by
        rcases h with h1 | h2 | h3
        · exact absurd hid h1
        · exact Or.inl h2
        · exact Or.inr h3
      simp [createAuth, hid, createRedisClient, hrc]
    · exact ⟨"payload must include `id`", by simp [createAuth, hid]⟩
  · intro hid
    simp [createAuth, hid]

theorem createAuth_config_error_witness :
    (¬ "id" ∈ (["name"] : List String) ∨ ("" : String) = "" ∨ ("tok" : String) = "")
    ∧ ((∃ e, createAuth ⟨⟨"", "tok"⟩, 60, ["name"]⟩ = Except.error e)
      ∧ (¬ "id" ∈ (["name"] : List String) →
          createAuth ⟨⟨"", "tok"⟩, 60, ["name"]⟩
            = Except.error "payload must include `id`")) :=
  ⟨Or.inl (by decide), createAuth_config_error ⟨⟨"", "tok"⟩, 60, ["name"]⟩ (Or.inl (by decide))⟩

/-- Claim C7: when the cookie carries a session identifier and the store
delete rejects, `remove` propagates exactly that error, the world — store
and cookie alike — is unchanged, and the trace shows the attempted store
delete and nothing after it: the cookie delete is never reached. -/
theorem remove_store_delete_failure (auth : Auth) (errs : RedisErrors)
    (w : World) (sid e : String)
    (hsid : CookieJar.get w.jar COOKIE_SESSION_KEY = some sid)
    (hne : sid ≠ "") (hdel : errs.delErr ("session:" ++ sid) = some e) :
    removeUserFromSession auth errs w
      = (Except.error e, w, [Event.storeDel ("session:" ++ sid)]) := by
  have hb : (sid == "") = false := by simp [beq_iff_eq, hne]
  simp [removeUserFromSession, getSessionId, hsid, hb, hdel]

theorem remove_store_delete_failure_witness :
    CookieJar.get [(COOKIE_SESSION_KEY, "abc")] COOKIE_SESSION_KEY = some "abc"
    ∧ ("abc" : String) ≠ ""
    ∧ (RedisErrors.mk (fun _ => none) (fun _ => none)
        (fun _ => some "boom")).delErr ("session:" ++ "abc") = some "boom"
    ∧ removeUserFromSession ⟨["id"], 60⟩
        (RedisErrors.mk (fun _ => none) (fun _ => none) (fun _ => some "boom"))
        ⟨[("session:abc", [("id", Value.vNum 1)])], [(COOKIE_SESSION_KEY, "abc")]⟩
      = (Except.error "boom",
          ⟨[("session:abc", [("id", Value.vNum 1)])], [(COOKIE_SESSION_KEY, "abc")]⟩,
          [Event.storeDel ("session:" ++ "abc")]) :=
  ⟨rfl, by decide, rfl,
    remove_store_delete_failure ⟨["id"], 60⟩
      (RedisErrors.mk (fun _ => none) (fun _ => none) (fun _ => some "boom"))
      ⟨[("session:abc", [("id", Value.vNum 1)])], [(COOKIE_SESSION_KEY, "abc")]⟩
      "abc" "boom" rfl (by decide) rfl⟩

/-- Claim C8: when the cookie carries a session identifier, `update`
writes only the store — it overwrites `session:<identifier>` with the
projected, serialised record and the configured TTL as expiry — and the
cookie jar is exactly unchanged; the trace holds the single store write
and no cookie set, no cookie delete and no identifier generation. -/
theorem update_writes_store_only (auth : Auth) (user : Obj) (w : World)
    (sid : String) (hsid : CookieJar.get w.jar COOKIE_SESSION_KEY = some sid)
    (hne : sid ≠ "") :
    updateUserSession auth noErrors user w
      = (Except.ok (),
          ⟨Store.set w.store ("session:" ++ sid)
              (stringifyBigInt (projectPayload auth.payload user)),
            w.jar⟩,
          [Event.storeSet ("session:" ++ sid)
            (stringifyBigInt (projectPayload auth.payload user)) auth.ttl]) := by
  have hb : (sid == "") = false := by simp [beq_iff_eq, hne]
  simp [updateUserSession, getSessionId, hsid, hb, noErrors]

theorem update_writes_store_only_witness :
    CookieJar.get [(COOKIE_SESSION_KEY, "abc")] COOKIE_SESSION_KEY = some "abc"
    ∧ ("abc" : String) ≠ ""
    ∧ updateUserSession ⟨["id"], 60⟩ noErrors [("id", Value.vNum 2)]
        ⟨[("session:abc", [("id", Value.vNum 1)])], [(COOKIE_SESSION_KEY, "abc")]⟩
      = (Except.ok (),
          ⟨Store.set [("session:abc", [("id", Value.vNum 1)])] ("session:" ++ "abc")
              (stringifyBigInt (projectPayload ["id"] [("id", Value.vNum 2)])),
            [(COOKIE_SESSION_KEY, "abc")]⟩,
          [Event.storeSet ("session:" ++ "abc")
            (stringifyBigInt (projectPayload ["id"] [("id", Value.vNum 2)])) 60]) :=
  ⟨rfl, by decide,
    update_writes_store_only ⟨["id"], 60⟩ [("id", Value.vNum 2)]
      ⟨[("session:abc", [("id", Value.vNum 1)])], [(COOKIE_SESSION_KEY, "abc")]⟩
      "abc" rfl (by decide)⟩

/-- Claim C6: with a session identifier in the cookie, `remove` succeeds,
the store entry `session:<identifier>` is gone, the session cookie is
gone, and a subsequent `read` on the same cookie context returns the
absent result. -/
theorem remove_then_read_absent (auth : Auth) (w : World) (sid : String)
    (hsid : CookieJar.get w.jar COOKIE_SESSION_KEY = some sid)
    (hne : sid ≠ "") :
    (removeUserFromSession auth noErrors w).1 = Except.ok (some ())
    ∧ Store.get (removeUserFromSession auth noErrors w).2.1.store
        ("session:" ++ sid) = none
    ∧ CookieJar.get (removeUserFromSession auth noErrors w).2.1.jar
        COOKIE_SESSION_KEY = none
    ∧ (getUserFromSession auth noErrors
        (removeUserFromSession auth noErrors w).2.1).1 = Except.ok none := by
  have hb : (sid == "") = false := by simp [beq_iff_eq, hne]
  have hw : removeUserFromSession auth noErrors w
      = (Except.ok (some ()),
          ⟨Store.del w.store ("session:" ++ sid),
            CookieJar.delete w.jar COOKIE_SESSION_KEY⟩,
          [Event.storeDel ("session:" ++ sid),
            Event.cookieDelete COOKIE_SESSION_KEY]) := by
    simp [removeUserFromSession, getSessionId, hsid, hb, noErrors]
  rw [hw]
  refine ⟨rfl, Store.get_del_same w.store ("session:" ++ sid), ?_, ?_⟩
  · exact CookieJar.get_delete_same w.jar COOKIE_SESSION_KEY
  · simp [getUserFromSession,
      CookieJar.get_delete_same w.jar COOKIE_SESSION_KEY]

theorem remove_then_read_absent_witness :
    CookieJar.get [(COOKIE_SESSION_KEY, "abc")] COOKIE_SESSION_KEY = some "abc"
    ∧ ("abc" : String) ≠ ""
    ∧ ((removeUserFromSession ⟨["id"], 60⟩ noErrors
          ⟨[("session:abc", [("id", Value.vNum 1)])],
            [(COOKIE_SESSION_KEY, "abc")]⟩).1 = Except.ok (some ())
      ∧ Store.get (removeUserFromSession ⟨["id"], 60⟩ noErrors
          ⟨[("session:abc", [("id", Value.vNum 1)])],
            [(COOKIE_SESSION_KEY, "abc")]⟩).2.1.store ("session:" ++ "abc") = none
      ∧ CookieJar.get (removeUserFromSession ⟨["id"], 60⟩ noErrors
          ⟨[("session:abc", [("id", Value.vNum 1)])],
            [(COOKIE_SESSION_KEY, "abc")]⟩).2.1.jar COOKIE_SESSION_KEY = none
      ∧ (getUserFromSession ⟨["id"], 60⟩ noErrors
          (removeUserFromSession ⟨["id"], 60⟩ noErrors
            ⟨[("session:abc", [("id", Value.vNum 1)])],
              [(COOKIE_SESSION_KEY, "abc")]⟩).2.1).1 = Except.ok none) :=
  ⟨rfl, by decide,
    remove_then_read_absent ⟨["id"], 60⟩
      ⟨[("session:abc", [("id", Value.vNum 1)])], [(COOKIE_SESSION_KEY, "abc")]⟩
      "abc" rfl (by decide)⟩

/-- Claim C10: against a store whose calls succeed, `read` returns the
absent result exactly when the session cookie is missing (in the source's
sense: absent or empty-string, the `!sessionId` test) or the store holds
no record for the identifier; and whenever a store record exists — even
one containing none of the configured fields — `read` returns a present
(possibly empty) projected record, so an empty projection is
distinguishable from an absent session. -/
theorem read_absent_iff (auth : Auth) (w : World) :
    ((getUserFromSession auth noErrors w).1 = Except.ok none ↔
      (isFalsy (CookieJar.get w.jar COOKIE_SESSION_KEY) = true
        ∨ ∃ sid, CookieJar.get w.jar COOKIE_SESSION_KEY = some sid ∧ sid ≠ ""
            ∧ Store.get w.store ("session:" ++ sid) = none))
    ∧ (∀ sid data, CookieJar.get w.jar COOKIE_SESSION_KEY = some sid → sid ≠ "" →
        Store.get w.store ("session:" ++ sid) = some data →
        (getUserFromSession auth noErrors w).1
          = Except.ok (some (projectPayload auth.payload data))) := by
  cases hc : CookieJar.get w.jar COOKIE_SESSION_KEY with
  | none =>
    constructor
    · simp [getUserFromSession, hc, isFalsy]
    · intro sid data hsid
      exact absurd hsid (by simp)
  | some sid =>
    by_cases hz : sid = ""
    · subst hz
      constructor
      · simp [getUserFromSession, hc, isFalsy]
      · intro sid' data hsid hne
        cases hsid
        exact absurd rfl hne
    · have hb : (sid == "") = false := by simp [beq_iff_eq, hz]
      cases hs : Store.get w.store ("session:" ++ sid) with
      | none =>
        constructor
        · constructor
          · intro _
            exact Or.inr ⟨sid, rfl, hz, hs⟩
          · intro _
            simp [getUserFromSession, hc, hb, noErrors, hs]
        · intro sid' data hsid hne hsd
          cases hsid
          rw [hs] at hsd
          exact absurd hsd (by simp)
      | some data =>
        constructor
        · constructor
          · intro hread
            simp [getUserFromSession, hc, hb, noErrors, hs] at hread
          · rintro (hfal | ⟨sid', hsid', hne', hs'⟩)
            · simp [isFalsy, hb] at hfal
            · cases hsid'
              rw [hs] at hs'
              exact absurd hs' (by simp)
        · intro sid' data' hsid hne hsd
          cases hsid
          rw [hs] at hsd
          cases hsd
          simp [getUserFromSession, hc, hb, noErrors, hs]

theorem read_absent_iff_witness :
    (getUserFromSession ⟨["id"], 60⟩ noErrors
        ⟨[("session:abc", ([] : Obj))], [(COOKIE_SESSION_KEY, "abc")]⟩).1
      = Except.ok (some (projectPayload ["id"] ([] : Obj))) :=
  (read_absent_iff ⟨["id"], 60⟩
      ⟨[("session:abc", ([] : Obj))], [(COOKIE_SESSION_KEY, "abc")]⟩).2
    "abc" ([] : Obj) rfl (by decide) rfl

/-- Shared helper: a `create` against a working store succeeds, and a
`read` on the resulting cookie context returns the stored record
projected onto the payload fields — i.e. the user projected, serialised
(bigints to decimal strings), and projected again. -/
theorem create_then_read (auth : Auth) (bytes : List Nat) (user : Obj)
    (w : World) (hb : bytes ≠ []) :
    (createUserSession auth noErrors bytes user w).1 = Except.ok ()
    ∧ (getUserFromSession auth noErrors
        (createUserSession auth noErrors bytes user w).2.1).1
      = Except.ok (some (projectPayload auth.payload
          (stringifyBigInt (projectPayload auth.payload user)))) := by
  have hsidne : generateSessionId bytes ≠ "" := by
    cases bytes with
    | nil => exact absurd rfl hb
    | cons b tl =>
      intro hcon
      have hlen : (generateSessionId (b :: tl)).data.length = 0 := by
        rw [hcon]
        rfl
      have hdata : (generateSessionId (b :: tl)).data
          = ((b :: tl).map byteToHexChars).flatten := by
        rw [show generateSessionId (b :: tl) = hexEncode (b :: tl) from rfl]
        exact hexEncode_data (b :: tl)
      rw [hdata] at hlen
      simp [byteToHexChars] at hlen
  have hbz : (generateSessionId bytes == "") = false := by
    simp [beq_iff_eq, hsidne]
  have hcreate : createUserSession auth noErrors bytes user w
      = (Except.ok (),
          ⟨Store.set w.store ("session:" ++ generateSessionId bytes)
              (stringifyBigInt (projectPayload auth.payload user)),
            CookieJar.set w.jar COOKIE_SESSION_KEY (generateSessionId bytes)⟩,
          [Event.genSessionId,
            Event.storeSet ("session:" ++ generateSessionId bytes)
              (stringifyBigInt (projectPayload auth.payload user)) auth.ttl,
            Event.cookieSet COOKIE_SESSION_KEY (generateSessionId bytes)
              auth.ttl]) := by
    simp [createUserSession, noErrors]
  refine ⟨by rw [hcreate], ?_⟩
  rw [hcreate]
  simp only [getUserFromSession,
    CookieJar.get_after_cookie_set w.jar COOKIE_SESSION_KEY (generateSessionId bytes),
    hbz, Bool.false_eq_true, if_neg, not_false_iff, noErrors,
    Store.get_after_set]

theorem Obj.get_create_then_read (auth : Auth) (user : Obj) (k : String) :
    Obj.get (projectPayload auth.payload
        (stringifyBigInt (projectPayload auth.payload user))) k
      = if k ∈ auth.payload then (Obj.get user k).map bigintReplace
        else none := by
  rw [projectPayload_get, stringifyBigInt_get, projectPayload_get]
  by_cases hk : k ∈ auth.payload
  · cases hg : Obj.get user k with
    | none => simp [hk, hg]
    | some v => simp [hk, hg]
  · simp [hk]

/-- Claim C2, counterexample: a configured `bigint` field with value
9223372036854775807 does not come back from `create` → `read` with its
value unchanged — the read returns the decimal string
"9223372036854775807" (a `vStr`), not the original `vBigInt`. -/
theorem bigint_read_returns_string :
    (getUserFromSession ⟨["id"], 60⟩ noErrors
        (createUserSession ⟨["id"], 60⟩ noErrors [2]
          [("id", Value.vBigInt 9223372036854775807)] ⟨[], []⟩).2.1).1
      = Except.ok (some [("id", Value.vStr "9223372036854775807")])
    ∧ (some (Value.vStr "9223372036854775807") : Option Value)
        ≠ some (Value.vBigInt 9223372036854775807) :=
  ⟨rfl, by decide⟩

/-- Claim C2 (amended): a configured 64-bit-integer field round-trips
through `create` → store → `read` with every decimal digit intact — no
precision loss — but is returned as the decimal *string* representation
of the value (`JSON` carries no bigint type), not as a bigint. -/
theorem bigint_roundtrip_decimal_string (auth : Auth) (bytes : List Nat)
    (user : Obj) (w : World) (f : String) (n : Int) (hb : bytes ≠ [])
    (hf : f ∈ auth.payload) (hv : Obj.get user f = some (Value.vBigInt n)) :
    (createUserSession auth noErrors bytes user w).1 = Except.ok ()
    ∧ ∃ o, (getUserFromSession auth noErrors
          (createUserSession auth noErrors bytes user w).2.1).1
        = Except.ok (some o)
      ∧ Obj.get o f = some (Value.vStr (toString n)) := by
  obtain ⟨hok, hread⟩ := create_then_read auth bytes user w hb
  refine ⟨hok, projectPayload auth.payload
      (stringifyBigInt (projectPayload auth.payload user)), hread, ?_⟩
  rw [Obj.get_create_then_read auth user f, if_pos hf, hv]
  rfl

theorem bigint_roundtrip_decimal_string_witness :
    (([3] : List Nat) ≠ []
      ∧ "id" ∈ (["id"] : List String)
      ∧ Obj.get [("id", Value.vBigInt 9223372036854775807)] "id"
          = some (Value.vBigInt 9223372036854775807))
    ∧ ((createUserSession ⟨["id"], 60⟩ noErrors [3]
          [("id", Value.vBigInt 9223372036854775807)] ⟨[], []⟩).1 = Except.ok ()
      ∧ ∃ o, (getUserFromSession ⟨["id"], 60⟩ noErrors
            (createUserSession ⟨["id"], 60⟩ noErrors [3]
              [("id", Value.vBigInt 9223372036854775807)] ⟨[], []⟩).2.1).1
          = Except.ok (some o)
        ∧ Obj.get o "id" = some (Value.vStr (toString (9223372036854775807 : Int)))) :=
  ⟨⟨by decide, by decide, rfl⟩,
    bigint_roundtrip_decimal_string ⟨["id"], 60⟩ [3]
      [("id", Value.vBigInt 9223372036854775807)] ⟨[], []⟩ "id"
      9223372036854775807 (by decide) (by decide) rfl⟩

/-- Claim C3, counterexample: `create` then `read` does not always return
the configured fields "with their values from user": for the user
`{id: 1n}` (a bigint value) the read result holds the string "1", not
the user's value `1n`. -/
theorem create_read_value_changed :
    (getUserFromSession ⟨["id"], 60⟩ noErrors
        (createUserSession ⟨["id"], 60⟩ noErrors [1]
          [("id", Value.vBigInt 1)] ⟨[], []⟩).2.1).1
      = Except.ok (some [("id", Value.vStr "1")])
    ∧ Obj.get [("id", Value.vStr "1")] "id" ≠ some (Value.vBigInt 1) :=
  ⟨rfl, by decide⟩

/-- Claim C3 (amended): `create(user, cookie)` followed immediately by
`read(cookie)` (store faithful) returns a record holding exactly the
configured fields present in `user` — no field outside the configured
list appears — whose values are the user's values mapped through the
bigint serialisation (`bigint`s come back as decimal strings, all other
scalars unchanged). -/
theorem create_read_projection (auth : Auth) (bytes : List Nat) (user : Obj)
    (w : World) (hb : bytes ≠ []) :
    ∃ o, (getUserFromSession auth noErrors
          (createUserSession auth noErrors bytes user w).2.1).1
        = Except.ok (some o)
      ∧ ∀ k, Obj.get o k =
          if k ∈ auth.payload then (Obj.get user k).map bigintReplace
          else none := by
  obtain ⟨_, hread⟩ := create_then_read auth bytes user w hb
  exact ⟨projectPayload auth.payload
      (stringifyBigInt (projectPayload auth.payload user)), hread,
    fun k => Obj.get_create_then_read auth user k⟩

theorem create_read_projection_witness :
    (([4] : List Nat) ≠ [])
    ∧ (∃ o, (getUserFromSession ⟨["id"], 60⟩ noErrors
          (createUserSession ⟨["id"], 60⟩ noErrors [4]
            [("id", Value.vNum 7), ("email", Value.vStr "a@b.c")] ⟨[], []⟩).2.1).1
        = Except.ok (some o)
      ∧ ∀ k, Obj.get o k =
          if k ∈ (["id"] : List String)
          then (Obj.get [("id", Value.vNum 7), ("email", Value.vStr "a@b.c")] k).map
            bigintReplace
          else none) :=
  ⟨by decide,
    create_read_projection ⟨["id"], 60⟩ [4]
      [("id", Value.vNum 7), ("email", Value.vStr "a@b.c")] ⟨[], []⟩ (by decide)⟩

theorem byteToHexChars_flatten_length (bytes : List Nat) :
    ((bytes.map byteToHexChars).flatten).length = 2 * bytes.length := by
  induction bytes with
  | nil => rfl
  | cons b tl ih =>
    simp only [List.map_cons, List.flatten_cons, List.length_append,
      List.length_cons, ih, byteToHexChars, List.length_nil]
    omega

/-- Claim C9: on any 512-byte output of the random source, the identifier
generator returns the hex encoding of exactly those bytes — a
1024-character string over the lowercase hex alphabet whose pairwise
hex-decoding gives back precisely the input bytes (each byte two
zero-padded hex digits). -/
theorem generateSessionId_spec (bytes : List Nat) (hlen : bytes.length = 512)
    (hb : ∀ b ∈ bytes, b < 256) :
    (generateSessionId bytes).length = 1024
    ∧ (∀ c ∈ (generateSessionId bytes).data, c ∈ ("0123456789abcdef").data)
    ∧ bufferFromHex (generateSessionId bytes) = bytes := by
  have hgen : generateSessionId bytes = hexEncode bytes := rfl
  have hdata : (generateSessionId bytes).data
      = (bytes.map byteToHexChars).flatten := by
    rw [hgen]
    exact hexEncode_data bytes
  refine ⟨?_, ?_, ?_⟩
  · show (generateSessionId bytes).data.length = 1024
    rw [hdata, byteToHexChars_flatten_length, hlen]
  · intro c hc
    rw [hdata] at hc
    obtain ⟨l, hl, hcl⟩ := List.mem_flatten.mp hc
    obtain ⟨b, hbmem, rfl⟩ := List.mem_map.mp hl
    rcases (show c = hexDigit (b / 16 % 16) ∨ c = hexDigit (b % 16) by
        simpa [byteToHexChars] using hcl) with h | h
    · subst h
      exact hexDigit_mem_alphabet _ (Nat.mod_lt _ (by omega))
    · subst h
      exact hexDigit_mem_alphabet _ (Nat.mod_lt _ (by omega))
  · rw [hgen]
    exact bufferFromHex_hexEncode bytes hb

theorem generateSessionId_spec_witness :
    ((List.replicate 512 7).length = 512
      ∧ ∀ b ∈ List.replicate 512 7, b < 256)
    ∧ ((generateSessionId (List.replicate 512 7)).length = 1024
      ∧ (∀ c ∈ (generateSessionId (List.replicate 512 7)).data,
          c ∈ ("0123456789abcdef").data)
      ∧ bufferFromHex (generateSessionId (List.replicate 512 7))
          = List.replicate 512 7) :=
  ⟨⟨by rw [List.length_replicate], fun b hb => by rw [List.eq_of_mem_replicate hb]; omega⟩,
    generateSessionId_spec (List.replicate 512 7) (by rw [List.length_replicate])
      (fun b hb => by rw [List.eq_of_mem_replicate hb]; omega)⟩

/-- Claim C1, counterexample: a single-character mutation of the stored
hash (same length, exactly one character changed — the first hex digit
replaced by the non-hex character z) makes `comparePassword` raise
`ERR_CRYPTO_TIMING_SAFE_EQUAL_LENGTH` instead of returning false: the
mutated string hex-decodes to a shorter byte string (Node's
`Buffer.from(s, "hex")` truncates at the invalid character) and
`crypto.timingSafeEqual` throws on unequal lengths. -/
theorem comparePassword_mutation_error :
    (String.mk ('z' :: (hashPassword (fun _ _ => List.replicate 64 171)
          "p" "s").data.tail)).length
      = (hashPassword (fun _ _ => List.replicate 64 171) "p" "s").length
    ∧ (((hashPassword (fun _ _ => List.replicate 64 171) "p" "s").data.zip
          (String.mk ('z' :: (hashPassword (fun _ _ => List.replicate 64 171)
            "p" "s").data.tail)).data).filter
        (fun cp => cp.1 != cp.2)).length = 1
    ∧ comparePassword (fun _ _ => List.replicate 64 171) "p" "s"
        (String.mk ('z' :: (hashPassword (fun _ _ => List.replicate 64 171)
          "p" "s").data.tail))
      = Except.error "ERR_CRYPTO_TIMING_SAFE_EQUAL_LENGTH" :=
  ⟨rfl, rfl, rfl⟩

/-- Claim C1 (amended): with the key-derivation primitive opaque (as the
spec treats it), `comparePassword` returns true on the honest triple
`(p, s, hashPassword(p, s))`; it returns false — without error — for
mutated credentials whose derived key differs from the original (same
output length, as scrypt's is fixed), and for any mutated stored hash
that still hex-decodes to the same length but different bytes; but a
mutated stored hash whose hex decoding has a different length (e.g. a
character replaced by a non-hex one) makes it raise
`ERR_CRYPTO_TIMING_SAFE_EQUAL_LENGTH` rather than return false. -/
theorem comparePassword_spec (deriveKey : String → String → List Nat)
    (p s p' s' stored stored₂ : String)
    (hbytes : ∀ b ∈ deriveKey p s, b < 256)
    (hbytes' : ∀ b ∈ deriveKey p' s', b < 256)
    (hlen : (deriveKey p' s').length = (deriveKey p s).length)
    (hne : deriveKey p' s' ≠ deriveKey p s)
    (hshort : (bufferFromHex stored).length ≠ (deriveKey p s).length)
    (hlen₂ : (bufferFromHex stored₂).length = (deriveKey p s).length)
    (hne₂ : bufferFromHex stored₂ ≠ deriveKey p s) :
    comparePassword deriveKey p s (hashPassword deriveKey p s) = Except.ok true
    ∧ comparePassword deriveKey p' s' (hashPassword deriveKey p s)
        = Except.ok false
    ∧ comparePassword deriveKey p s stored₂ = Except.ok false
    ∧ comparePassword deriveKey p s stored
        = Except.error "ERR_CRYPTO_TIMING_SAFE_EQUAL_LENGTH" := by
  have hd : bufferFromHex (hashPassword deriveKey p s) = deriveKey p s :=
    bufferFromHex_hexEncode _ hbytes
  have hd' : bufferFromHex (hashPassword deriveKey p' s') = deriveKey p' s' :=
    bufferFromHex_hexEncode _ hbytes'
  refine ⟨?_, ?_, ?_, ?_⟩
  · rw [comparePassword, hd]
    simp [timingSafeEqual]
  · rw [comparePassword, hd', hd, timingSafeEqual, if_pos hlen]
    have hf : (deriveKey p' s' == deriveKey p s) = false :=
      beq_eq_false_iff_ne.mpr hne
    rw [hf]
  · rw [comparePassword, hd, timingSafeEqual, if_pos hlen₂.symm]
    have hf : (deriveKey p s == bufferFromHex stored₂) = false :=
      beq_eq_false_iff_ne.mpr (fun h => hne₂ h.symm)
    rw [hf]
  · rw [comparePassword, hd, timingSafeEqual,
      if_neg (fun h => hshort h.symm)]

theorem comparePassword_spec_witness :
    ((∀ b ∈ ([0, 1] : List Nat), b < 256)
      ∧ (∀ b ∈ ([2, 3] : List Nat), b < 256)
      ∧ ([2, 3] : List Nat).length = ([0, 1] : List Nat).length
      ∧ ([2, 3] : List Nat) ≠ [0, 1]
      ∧ (bufferFromHex "00").length ≠ ([0, 1] : List Nat).length
      ∧ (bufferFromHex "0203").length = ([0, 1] : List Nat).length
      ∧ bufferFromHex "0203" ≠ [0, 1])
    ∧ (comparePassword (fun pw _ => if pw = "pw" then [0, 1] else [2, 3])
          "pw" "s"
          (hashPassword (fun pw _ => if pw = "pw" then [0, 1] else [2, 3])
            "pw" "s")
        = Except.ok true
      ∧ comparePassword (fun pw _ => if pw = "pw" then [0, 1] else [2, 3])
          "px" "s"
          (hashPassword (fun pw _ => if pw = "pw" then [0, 1] else [2, 3])
            "pw" "s")
        = Except.ok false
      ∧ comparePassword (fun pw _ => if pw = "pw" then [0, 1] else [2, 3])
          "pw" "s" "0203"
        = Except.ok false
      ∧ comparePassword (fun pw _ => if pw = "pw" then [0, 1] else [2, 3])
          "pw" "s" "00"
        = Except.error "ERR_CRYPTO_TIMING_SAFE_EQUAL_LENGTH") :=
  ⟨⟨by decide, by decide, by decide, by decide, by decide, by decide, by decide⟩,
    comparePassword_spec (fun pw _ => if pw = "pw" then [0, 1] else [2, 3])
      "pw" "s" "px" "s" "00" "0203" (by decide) (by decide) (by decide)
      (by decide) (by decide) (by decide) (by decide)⟩
